import Mathlib

/-!
Shallow embedding of the vso-agent execution-tracking core:
the paging log writer (PagingLogger), the fan-out diagnostic context
(Context), and the job lifecycle manager (JobContext.finishJob /
setTaskResult), together with proofs of the specified properties.

File I/O is modelled by an explicit event trace: opening a page file,
writing a line through a descriptor, closing a descriptor (recording
whether it was actually open at that moment), writing the metadata
sidecar, and emitting a pageComplete notification.  Descriptor numbers
are allocated from 3 upwards, mirroring POSIX descriptors (0..2 taken),
so that a valid descriptor is never falsy.
-/

/-- One observable file-system / notification event of the paging logger. -/
inductive PageEv
  | metaWritten
  | fdOpened (fd : Nat)
  | fdClosed (fd : Nat) (wasOpen : Bool)
  | lineWritten (fd : Nat) (wasOpen : Bool)
  | pageComplete (pageNumber : Nat) (linesInPage : Nat)
  deriving DecidableEq

/-- The fixed page rotation threshold (`var PAGE_SIZE = 25;`). -/
def PAGE_SIZE : Nat := 25

/-- State of a `PagingLogger` instance plus the world it acts on:
`fd`, `pageCount`, `lineCount`, `created`, `pageFilePath` mirror the
class fields; `nextFd`, `openFds`, `events` model the OS and the
emitted events. -/
structure PagingLogger where
  created : Bool
  pageCount : Nat
  lineCount : Nat
  fd : Option Nat
  pageFilePath : Option Nat
  nextFd : Nat
  openFds : List Nat
  events : List PageEv
  deriving DecidableEq

namespace PagingLogger

/-- A fresh logger: no descriptor, counters at zero, nothing written. -/
def init : PagingLogger :=
  { created := false, pageCount := 0, lineCount := 0, fd := none,
    pageFilePath := none, nextFd := 3, openFds := [], events := [] }

/-- `endPage`: if `_fd` is set, `fs.closeSync(_fd)` and emit the
`pageComplete` notification carrying the current page number.  The
`_fd` field is NOT cleared (exactly as in the source). -/
def endPage (s : PagingLogger) : PagingLogger :=
  match s.fd with
  | none => s
  | some f =>
      { s with
        openFds := s.openFds.erase f,
        created := false,
        events := s.events ++ [PageEv.fdClosed f (s.openFds.contains f),
                               PageEv.pageComplete s.pageCount s.lineCount] }

/-- `newPage`: close the current page, then open page `pageCount + 1`
with a fresh descriptor and reset the line counter. -/
def newPage (s : PagingLogger) : PagingLogger :=
  let s1 := endPage s
  { s1 with
    pageCount := s1.pageCount + 1,
    pageFilePath := some (s1.pageCount + 1),
    fd := some s1.nextFd,
    nextFd := s1.nextFd + 1,
    openFds := s1.openFds ++ [s1.nextFd],
    created := true,
    lineCount := 0,
    events := s1.events ++ [PageEv.fdOpened s1.nextFd] }

/-- `create`: write the metadata sidecar (`fs.writeFileSync`), then
open the first page. -/
def create (s : PagingLogger) : PagingLogger :=
  let s1 := { s with events := s.events ++ [PageEv.metaWritten] }
  let s2 := newPage s1
  { s2 with created := true }

/-- The body of `write` after the lazy-creation check: `fs.writeSync`
on the current descriptor, bump the line counter, rotate when the
counter reaches `PAGE_SIZE`. -/
def writeCore (s : PagingLogger) (f : Nat) : PagingLogger :=
  let s1 := { s with
              events := s.events ++ [PageEv.lineWritten f (s.openFds.contains f)],
              lineCount := s.lineCount + 1 }
  if PAGE_SIZE ≤ s1.lineCount then newPage s1 else s1

/-- `write(line)`: lazily create on first write, then append. -/
def write (s : PagingLogger) : PagingLogger :=
  match s.fd with
  | none =>
      let s1 := create s
      match s1.fd with
      | none => s1
      | some f => writeCore s1 f
  | some f => writeCore s f

/-- `end()`: just `endPage()`. -/
def endLog (s : PagingLogger) : PagingLogger := endPage s

/-- The state after `n` consecutive `write` calls on a fresh logger. -/
def writeN : Nat → PagingLogger
  | 0 => init
  | n + 1 => write (writeN n)

/-- The `(pageNumber, linesInPage)` pairs of the `pageComplete`
notifications in an event trace, in emission order. -/
def notifsOf (evs : List PageEv) : List (Nat × Nat) :=
  evs.filterMap (fun e =>
    match e with
    | PageEv.pageComplete n l => some (n, l)
    | _ => none)

/-- The page-ready notifications a logger has emitted so far. -/
def pageNotifs (s : PagingLogger) : List (Nat × Nat) :=
  notifsOf s.events

lemma notifsOf_append (a b : List PageEv) :
    notifsOf (a ++ b) = notifsOf a ++ notifsOf b := by
  simp [notifsOf, List.filterMap_append]

lemma notifsOf_lineWritten (f : Nat) (b : Bool) :
    notifsOf [PageEv.lineWritten f b] = [] := rfl

lemma notifsOf_fdOpened (f : Nat) : notifsOf [PageEv.fdOpened f] = [] := rfl

lemma notifsOf_closePair (f : Nat) (b : Bool) (p l : Nat) :
    notifsOf [PageEv.fdClosed f b, PageEv.pageComplete p l] = [(p, l)] := rfl

lemma endPage_some (s : PagingLogger) (f : Nat) (h : s.fd = some f) :
    endPage s =
      { s with
        openFds := s.openFds.erase f,
        created := false,
        events := s.events ++ [PageEv.fdClosed f (s.openFds.contains f),
                               PageEv.pageComplete s.pageCount s.lineCount] } := by
  unfold endPage
  rw [h]

lemma endPage_none (s : PagingLogger) (h : s.fd = none) : endPage s = s := by
  unfold endPage
  rw [h]

lemma write_eq_writeCore (s : PagingLogger) (f : Nat) (h : s.fd = some f) :
    write s = writeCore s f := by
  unfold write
  rw [h]

/-- The invariant of a logger that has received `k+1` writes: the open
descriptor, the counters and the notifications so far are all
determined by `k+1` via division by `PAGE_SIZE`. -/
lemma writeN_invariant : ∀ k : Nat,
    (writeN (k + 1)).lineCount = (k + 1) % PAGE_SIZE ∧
    (writeN (k + 1)).pageCount = (k + 1) / PAGE_SIZE + 1 ∧
    (writeN (k + 1)).fd = some ((k + 1) / PAGE_SIZE + 3) ∧
    (writeN (k + 1)).openFds = [(k + 1) / PAGE_SIZE + 3] ∧
    (writeN (k + 1)).nextFd = (k + 1) / PAGE_SIZE + 4 ∧
    notifsOf (writeN (k + 1)).events
      = (List.range ((k + 1) / PAGE_SIZE)).map (fun j => (j + 1, PAGE_SIZE)) := by
  intro k
  induction k with
  | zero => exact ⟨rfl, rfl, rfl, rfl, rfl, rfl⟩
  | succ n ih =>
      obtain ⟨h1, h2, h3, h4, h5, h6⟩ := ih
      have hmod : (n + 1) % PAGE_SIZE < PAGE_SIZE := by
        unfold PAGE_SIZE; omega
      have hw : writeN (n + 2) = writeCore (writeN (n + 1)) ((n + 1) / PAGE_SIZE + 3) := by
        show write (writeN (n + 1)) = _
        exact write_eq_writeCore _ _ h3
      by_cases hrot : PAGE_SIZE ≤ (n + 1) % PAGE_SIZE + 1
      · -- rotation: the (n+2)-nd write fills the page
        have hm : (n + 1) % PAGE_SIZE + 1 = PAGE_SIZE := by omega
        have hdiv : (n + 2) / PAGE_SIZE = (n + 1) / PAGE_SIZE + 1 := by
          unfold PAGE_SIZE at *; omega
        have hmod2 : (n + 2) % PAGE_SIZE = 0 := by
          unfold PAGE_SIZE at *; omega
        have hcore :
            writeCore (writeN (n + 1)) ((n + 1) / PAGE_SIZE + 3)
              = newPage { writeN (n + 1) with
                  events := (writeN (n + 1)).events
                    ++ [PageEv.lineWritten ((n + 1) / PAGE_SIZE + 3)
                          ((writeN (n + 1)).openFds.contains ((n + 1) / PAGE_SIZE + 3))],
                  lineCount := (writeN (n + 1)).lineCount + 1 } := by
          unfold writeCore
          rw [if_pos]
          show PAGE_SIZE ≤ (writeN (n + 1)).lineCount + 1
          rw [h1]; omega
        rw [hw, hcore]
        unfold newPage
        rw [endPage_some _ ((n + 1) / PAGE_SIZE + 3) (by simpa using h3)]
        refine ⟨?_, ?_, ?_, ?_, ?_, ?_⟩
        · simp [hmod2]
        · simp [h2, hdiv]
        · simp [h5, hdiv]
        · simp [h4, h5, hdiv, List.erase_cons_head]
        · simp [h5, hdiv]
        · have hdiv2 : (n + 1 + 1) / PAGE_SIZE = (n + 1) / PAGE_SIZE + 1 := hdiv
          rw [notifsOf_append, notifsOf_append, notifsOf_append, h6, h2, h1, hm,
              notifsOf_lineWritten, notifsOf_fdOpened, notifsOf_closePair,
              hdiv2, List.range_succ]
          simp
      · -- no rotation: stay on the current page
        have hdiv : (n + 2) / PAGE_SIZE = (n + 1) / PAGE_SIZE := by
          unfold PAGE_SIZE at *; omega
        have hmod2 : (n + 2) % PAGE_SIZE = (n + 1) % PAGE_SIZE + 1 := by
          unfold PAGE_SIZE at *; omega
        have hcore :
            writeCore (writeN (n + 1)) ((n + 1) / PAGE_SIZE + 3)
              = { writeN (n + 1) with
                  events := (writeN (n + 1)).events
                    ++ [PageEv.lineWritten ((n + 1) / PAGE_SIZE + 3)
                          ((writeN (n + 1)).openFds.contains ((n + 1) / PAGE_SIZE + 3))],
                  lineCount := (writeN (n + 1)).lineCount + 1 } := by
          unfold writeCore
          rw [if_neg]
          show ¬ PAGE_SIZE ≤ (writeN (n + 1)).lineCount + 1
          rw [h1]; omega
        rw [hw, hcore]
        refine ⟨?_, ?_, ?_, ?_, ?_, ?_⟩
        · simp [h1, hmod2]
        · simp [h2, hdiv]
        · simp [h3, hdiv]
        · simp [h4, hdiv]
        · simp [h5, hdiv]
        · have hdiv2 : (n + 1 + 1) / PAGE_SIZE = (n + 1) / PAGE_SIZE := hdiv
          rw [notifsOf_append, h6, notifsOf_lineWritten, hdiv2]
          simp

lemma endPage_events_mono (s : PagingLogger) :
    ∃ t : List PageEv, (endPage s).events = s.events ++ t := by
  unfold endPage
  rcases hfd : s.fd with _ | f
  · exact ⟨[], by simp⟩
  · exact ⟨_, rfl⟩

lemma newPage_events (s : PagingLogger) :
    (newPage s).events = (endPage s).events ++ [PageEv.fdOpened (endPage s).nextFd] := rfl

lemma writeCore_events (s : PagingLogger) (f : Nat) :
    ∃ rest : List PageEv,
      (writeCore s f).events
        = s.events ++ PageEv.lineWritten f (s.openFds.contains f) :: rest := by
  unfold writeCore
  dsimp only
  split
  · obtain ⟨t, ht⟩ := endPage_events_mono { s with
        events := s.events ++ [PageEv.lineWritten f (s.openFds.contains f)],
        lineCount := s.lineCount + 1 }
    refine ⟨t ++ [PageEv.fdOpened (PagingLogger.endPage { s with
        events := s.events ++ [PageEv.lineWritten f (s.openFds.contains f)],
        lineCount := s.lineCount + 1 }).nextFd], ?_⟩
    rw [newPage_events, ht]
    simp
  · exact ⟨[], by simp⟩

end PagingLogger

/-- Claim C1, counterexample.  At `N = 25` writes (one full page) the
code closes 2 pages, not `⌈25/25⌉ = 1`: the rotation in `write` opens
page 2 immediately after page 1 fills, and `end()` then closes that
empty page and emits a second notification. -/
theorem C1_counterexample :
    (PagingLogger.pageNotifs (PagingLogger.endLog (PagingLogger.writeN 25))).length
      ≠ (25 + PAGE_SIZE - 1) / PAGE_SIZE := by decide

/-- Claim C1 as amended: for `N ≥ 1` writes followed by `end()`, the
closed pages are exactly pages `1 .. N/P + 1` in increasing order with
no gaps or repeats, the first `N/P` carrying `P` lines each and the
last carrying `N mod P` lines (zero lines when `P` divides `N`); for
`N = 0` there are no notifications.  Hence the closed-page count is
`⌈N/P⌉` exactly when `P` does not divide `N`, and `⌈N/P⌉ + 1` (with a
trailing empty page) when `N` is a positive multiple of `P`. -/
theorem C1_amended_page_accounting (n : Nat) :
    PagingLogger.pageNotifs (PagingLogger.endLog (PagingLogger.writeN n))
      = if n = 0 then ([] : List (Nat × Nat))
        else (List.range (n / PAGE_SIZE)).map (fun j => (j + 1, PAGE_SIZE))
             ++ [(n / PAGE_SIZE + 1, n % PAGE_SIZE)] := by
  cases n with
  | zero => rfl
  | succ k =>
      obtain ⟨h1, h2, h3, h4, h5, h6⟩ := PagingLogger.writeN_invariant k
      rw [if_neg (Nat.succ_ne_zero k)]
      show PagingLogger.notifsOf (PagingLogger.endPage (PagingLogger.writeN (k + 1))).events = _
      rw [PagingLogger.endPage_some _ _ h3]
      show PagingLogger.notifsOf ((PagingLogger.writeN (k + 1)).events ++ _) = _
      rw [PagingLogger.notifsOf_append, h6, PagingLogger.notifsOf_closePair, h2, h1]

/-- The reference scenario of the spec: 60 writes then `end()` yield
exactly the notifications (1, 25), (2, 25), (3, 10). -/
example :
    PagingLogger.pageNotifs (PagingLogger.endLog (PagingLogger.writeN 60))
      = [(1, 25), (2, 25), (3, 10)] := by decide

/-- Claim C6: `end()` on a logger that never received a write is a
complete no-op — the state is unchanged and the event trace is empty,
so no metadata sidecar was written, no page file was opened, and no
page-ready notification was emitted. -/
theorem C6_end_without_writes :
    PagingLogger.endLog (PagingLogger.writeN 0) = PagingLogger.init ∧
    (PagingLogger.endLog (PagingLogger.writeN 0)).events = [] :=
  ⟨rfl, rfl⟩

/-- Claim C10: after at least one write, `end()` is not idempotent.
`endPage` closes the descriptor but leaves the `_fd` field set, so the
state after `end()` still holds `some f` while the descriptor is no
longer open; a second `end()` re-enters the close-and-notify branch,
issuing `closeSync` on the already-closed descriptor (`wasOpen =
false`) and emitting a spurious notification, and a subsequent
`write` skips lazy creation and writes through the closed
descriptor. -/
theorem C10_end_not_idempotent (k : Nat) :
    ∃ f : Nat,
      (PagingLogger.endLog (PagingLogger.writeN (k + 1))).fd = some f ∧
      (PagingLogger.endLog (PagingLogger.writeN (k + 1))).openFds = [] ∧
      (PagingLogger.endLog (PagingLogger.endLog (PagingLogger.writeN (k + 1)))).events
        = (PagingLogger.endLog (PagingLogger.writeN (k + 1))).events
          ++ [PageEv.fdClosed f false,
              PageEv.pageComplete
                (PagingLogger.endLog (PagingLogger.writeN (k + 1))).pageCount
                (PagingLogger.endLog (PagingLogger.writeN (k + 1))).lineCount] ∧
      ∃ rest : List PageEv,
        (PagingLogger.write (PagingLogger.endLog (PagingLogger.writeN (k + 1)))).events
          = (PagingLogger.endLog (PagingLogger.writeN (k + 1))).events
            ++ PageEv.lineWritten f false :: rest := by
  obtain ⟨h1, h2, h3, h4, h5, h6⟩ := PagingLogger.writeN_invariant k
  have hend := PagingLogger.endPage_some _ _ h3
  have hefd : (PagingLogger.endLog (PagingLogger.writeN (k + 1))).fd
      = some ((k + 1) / PAGE_SIZE + 3) := by
    show (PagingLogger.endPage (PagingLogger.writeN (k + 1))).fd = _
    rw [hend]
    exact h3
  have heopen : (PagingLogger.endLog (PagingLogger.writeN (k + 1))).openFds = [] := by
    show (PagingLogger.endPage (PagingLogger.writeN (k + 1))).openFds = _
    rw [hend]
    show ((PagingLogger.writeN (k + 1)).openFds).erase _ = []
    rw [h4]
    exact List.erase_cons_head _ _
  have hcont : ((PagingLogger.endLog (PagingLogger.writeN (k + 1))).openFds).contains
      ((k + 1) / PAGE_SIZE + 3) = false := by
    rw [heopen]; rfl
  refine ⟨(k + 1) / PAGE_SIZE + 3, hefd, heopen, ?_, ?_⟩
  · have h2nd := PagingLogger.endPage_some _ _ hefd
    show (PagingLogger.endPage
            (PagingLogger.endLog (PagingLogger.writeN (k + 1)))).events = _
    rw [h2nd]
    show (PagingLogger.endLog (PagingLogger.writeN (k + 1))).events ++ _ = _
    rw [hcont]
  · have hwc := PagingLogger.write_eq_writeCore _ _ hefd
    rw [hwc]
    obtain ⟨rest, hr⟩ := PagingLogger.writeCore_events
      (PagingLogger.endLog (PagingLogger.writeN (k + 1))) ((k + 1) / PAGE_SIZE + 3)
    rw [hcont] at hr
    exact ⟨rest, hr⟩

/-!
The fan-out diagnostic context (`Context` in `context.ts`).

The numeric values of `cm.DiagnosticLevel` live in `common.ts`, which
is not among the sources; the ordering below is modelled from the
spec: Error < Warning < Status < Info < Verbose, increasing verbosity,
with a writer emitting a line when its configured threshold is
numerically ≥ the line's level.
-/

namespace DiagnosticLevel

/-- Modelled from the spec: `cm.DiagnosticLevel.Error` (lowest verbosity). -/
def Error : Nat := 1

/-- Modelled from the spec: `cm.DiagnosticLevel.Warning`. -/
def Warning : Nat := 2

/-- Modelled from the spec: `cm.DiagnosticLevel.Status`. -/
def Status : Nat := 3

/-- Modelled from the spec: `cm.DiagnosticLevel.Info`. -/
def Info : Nat := 4

/-- Modelled from the spec: `cm.DiagnosticLevel.Verbose` (highest verbosity). -/
def Verbose : Nat := 5

end DiagnosticLevel

/-- A JavaScript value passed as the `message` argument of a leveled
logging call: either an actual string or some non-string value (a
structure, carried here as its JSON rendering). -/
inductive JsVal
  | str (s : String)
  | obj (json : String)
  deriving DecidableEq

/-- One delivery a diagnostic writer received: via `write`, via
`writeError`, or its `end()` call. -/
inductive WEntry
  | write (line : String)
  | writeError (line : String)
  | ended
  deriving DecidableEq

/-- A registered diagnostic writer: its configured threshold and the
deliveries it has received, in order. -/
structure DiagWriter where
  level : Nat
  received : List WEntry
  deriving DecidableEq

/-- State of a `Context`: the registered writers, the sticky
`hasErrors` flag, the `message` events emitted so far, and the
`console.error` diagnostics produced for malformed calls.  `nowIso`
stands for `new Date().toISOString()`. -/
structure Context where
  writers : List DiagWriter
  hasErrors : Bool
  nowIso : String
  messages : List String
  consoleErrors : List String
  deriving DecidableEq

/-- `os.EOL` on the reference platform. -/
def eol : String := "\n"

/-- The `replace(/(\r\n|\n|\r)/gm, '')` step: drop every CR and LF. -/
def stripNewlines (s : String) : String :=
  String.mk (s.toList.filter (fun c => !(c == '\n' || c == '\r')))

/-- Split a character list at each `'\n'` (accumulator holds the
current piece reversed). -/
def splitLinesAux : List Char → List Char → List (List Char)
  | [], acc => [acc.reverse]
  | c :: rest, acc =>
      if c = '\n' then acc.reverse :: splitLinesAux rest []
      else splitLinesAux rest (c :: acc)

/-- `message.split(os.EOL)` with `os.EOL = "\n"`: the pieces between
newlines, keeping empty pieces (so a message always yields at least
one line, and a trailing newline yields a trailing empty line), as in
JavaScript's `String.prototype.split` with a one-character separator. -/
def splitLines (s : String) : List String :=
  (splitLinesAux s.toList []).map (fun l => String.mk l)

/-- `tag ? '[' + tag + '] ' : ''`. -/
def tagText (tag : Option String) : String :=
  match tag with
  | some t => "[" ++ t ++ "] "
  | none => ""

namespace Context

/-- The body of `_write`'s per-line loop: strip embedded line endings,
emit the `message` event, and deliver the stamped line to every writer
whose threshold is ≥ the level — via `writeError` for Error, `write`
otherwise. -/
def writeLine (level : Nat) (tag : Option String) (ctx : Context) (ln : String) : Context :=
  let line := stripNewlines ln
  let tagged := tagText tag
  let logLine := tagged ++ ctx.nowIso ++ ": " ++ line ++ eol
  let ctx1 := { ctx with messages := ctx.messages ++ [tagged ++ line] }
  { ctx1 with
    writers := ctx1.writers.map (fun w =>
      if level ≤ w.level then
        if level = DiagnosticLevel.Error then
          { w with received := w.received ++ [WEntry.writeError logLine] }
        else
          { w with received := w.received ++ [WEntry.write logLine] }
      else w) }

/-- `_write(level, tag, message)`: reject non-string messages with two
`console.error` diagnostics and return; otherwise split on `os.EOL`
and run the per-line loop. -/
def writeLeveled (ctx : Context) (level : Nat) (tag : Option String) (message : JsVal) :
    Context :=
  match message with
  | JsVal.obj j =>
      { ctx with consoleErrors := ctx.consoleErrors
          ++ ["non-string write: " ++ toString level ++ " " ++ tagText tag, j] }
  | JsVal.str m =>
      (splitLines m).foldl (fun c ln => writeLine level tag c ln) ctx

/-- `output(line)`: unformatted passthrough to every writer. -/
def output (ctx : Context) (line : String) : Context :=
  { ctx with
    writers := ctx.writers.map (fun w =>
      { w with received := w.received ++ [WEntry.write line] }) }

/-- `error(message)`: set the sticky flag, then write at Error level. -/
def error (ctx : Context) (message : JsVal) : Context :=
  writeLeveled { ctx with hasErrors := true } DiagnosticLevel.Error (some "Error") message

/-- `warning(message)`. -/
def warning (ctx : Context) (message : JsVal) : Context :=
  writeLeveled ctx DiagnosticLevel.Warning (some "Warning") message

/-- `info(message)`. -/
def info (ctx : Context) (message : JsVal) : Context :=
  writeLeveled ctx DiagnosticLevel.Info none message

/-- `verbose(message)`. -/
def verbose (ctx : Context) (message : JsVal) : Context :=
  writeLeveled ctx DiagnosticLevel.Verbose none message

/-- `status(message)`. -/
def status (ctx : Context) (message : JsVal) : Context :=
  writeLeveled ctx DiagnosticLevel.Status none message

/-- The fixed separator band used by `heading`. -/
def headingDelim : String :=
  "----------------------------------------------------------------------" ++ eol

/-- `heading(message)`: for EACH writer whose threshold is ≥ Status,
run the delimited message through `_write` at Info level. -/
def heading (ctx : Context) (message : String) : Context :=
  ctx.writers.foldl
    (fun acc w =>
      if DiagnosticLevel.Status ≤ w.level then
        writeLeveled acc DiagnosticLevel.Info none
          (JsVal.str (headingDelim ++ message ++ headingDelim))
      else acc)
    ctx

/-- `section(message)` (named `sectionBanner` here because `section`
is a Lean keyword): for EACH writer whose threshold is ≥ Status, run
the `"+++++++"`-marked message through `_write` at Info level. -/
def sectionBanner (ctx : Context) (message : String) : Context :=
  ctx.writers.foldl
    (fun acc w =>
      if DiagnosticLevel.Status ≤ w.level then
        writeLeveled acc DiagnosticLevel.Info none
          (JsVal.str (" " ++ eol ++ "+++++++" ++ message ++ " " ++ eol))
      else acc)
    ctx

/-- `end()` (named `endAll` here because `end` is a Lean keyword):
call `end()` on every writer. -/
def endAll (ctx : Context) : Context :=
  { ctx with
    writers := ctx.writers.map (fun w =>
      { w with received := w.received ++ [WEntry.ended] }) }

end Context

/-- The delivery a writer that accepts `level` receives for one line
of a leveled message: the stamped line via `writeError` for Error and
via `write` otherwise. -/
def acceptedEntry (level : Nat) (tag : Option String) (now ln : String) : WEntry :=
  if level = DiagnosticLevel.Error then
    WEntry.writeError (tagText tag ++ now ++ ": " ++ stripNewlines ln ++ eol)
  else
    WEntry.write (tagText tag ++ now ++ ": " ++ stripNewlines ln ++ eol)

lemma writeLine_nowIso (level : Nat) (tag : Option String) (ctx : Context) (ln : String) :
    (Context.writeLine level tag ctx ln).nowIso = ctx.nowIso := rfl

lemma writeLine_hasErrors (level : Nat) (tag : Option String) (ctx : Context) (ln : String) :
    (Context.writeLine level tag ctx ln).hasErrors = ctx.hasErrors := rfl

lemma writeLine_writers (level : Nat) (tag : Option String) (ctx : Context) (ln : String) :
    (Context.writeLine level tag ctx ln).writers
      = ctx.writers.map (fun w =>
          if level ≤ w.level then
            { w with received := w.received ++ [acceptedEntry level tag ctx.nowIso ln] }
          else w) := by
  unfold Context.writeLine
  dsimp only
  congr 1
  funext w
  by_cases hE : level = DiagnosticLevel.Error
  · simp [acceptedEntry, hE]
  · simp [acceptedEntry, hE]

lemma foldl_writeLine_writers (level : Nat) (tag : Option String) :
    ∀ (ls : List String) (ctx : Context),
      (ls.foldl (fun c ln => Context.writeLine level tag c ln) ctx).writers
        = ctx.writers.map (fun w =>
            if level ≤ w.level then
              { w with received := w.received ++ ls.map (acceptedEntry level tag ctx.nowIso) }
            else w) := by
  intro ls
  induction ls with
  | nil =>
      intro ctx
      simp only [List.foldl_nil, List.map_nil]
      have hid : (fun (w : DiagWriter) =>
          if level ≤ w.level then { w with received := w.received ++ [] } else w)
          = fun w => w := by
        funext w
        by_cases h : level ≤ w.level <;> simp [h]
      rw [hid, List.map_id']
  | cons ln ls ih =>
      intro ctx
      rw [List.foldl_cons, ih, writeLine_writers, writeLine_nowIso, List.map_map]
      congr 1
      funext w
      by_cases h : level ≤ w.level
      · simp [Function.comp, h]
      · simp [Function.comp, h]

/-- Claim C4: for every leveled message and every registered writer,
the writer receives the persisted lines exactly when its configured
threshold is numerically ≥ the message level, and each delivery is an
`acceptedEntry` — `writeError` for Error-level messages, `write` for
all others.  In particular an Info-threshold writer (4) never receives
a Verbose (5) message and a Verbose-threshold writer (5) receives
every message. -/
theorem C4_leveled_delivery (ctx : Context) (level : Nat) (tag : Option String) (m : String) :
    (Context.writeLeveled ctx level tag (JsVal.str m)).writers
      = ctx.writers.map (fun w =>
          if level ≤ w.level then
            { w with received := w.received
                ++ (splitLines m).map (acceptedEntry level tag ctx.nowIso) }
          else w) :=
  foldl_writeLine_writers level tag (splitLines m) ctx

lemma foldl_hasErrors_eq {α : Type} (f : Context → α → Context)
    (hf : ∀ (c : Context) (a : α), (f c a).hasErrors = c.hasErrors) (l : List α) :
    ∀ c : Context, (l.foldl f c).hasErrors = c.hasErrors := by
  induction l with
  | nil => intro c; rfl
  | cons a l ih => intro c; rw [List.foldl_cons, ih, hf]

lemma writeLeveled_hasErrors (ctx : Context) (level : Nat) (tag : Option String) (m : JsVal) :
    (Context.writeLeveled ctx level tag m).hasErrors = ctx.hasErrors := by
  cases m with
  | obj j => rfl
  | str s =>
      exact foldl_hasErrors_eq _ (fun c ln => writeLine_hasErrors level tag c ln) _ ctx

lemma heading_hasErrors (ctx : Context) (m : String) :
    (Context.heading ctx m).hasErrors = ctx.hasErrors := by
  unfold Context.heading
  refine foldl_hasErrors_eq _ ?_ _ ctx
  intro c w
  by_cases h : DiagnosticLevel.Status ≤ w.level
  · simp [h, writeLeveled_hasErrors]
  · simp [h]

lemma sectionBanner_hasErrors (ctx : Context) (m : String) :
    (Context.sectionBanner ctx m).hasErrors = ctx.hasErrors := by
  unfold Context.sectionBanner
  refine foldl_hasErrors_eq _ ?_ _ ctx
  intro c w
  by_cases h : DiagnosticLevel.Status ≤ w.level
  · simp [h, writeLeveled_hasErrors]
  · simp [h]

/-- One public call on a `Context`, for reasoning about arbitrary call
sequences. -/
inductive ContextCall
  | outputCall (line : String)
  | errorCall (m : JsVal)
  | warningCall (m : JsVal)
  | infoCall (m : JsVal)
  | verboseCall (m : JsVal)
  | statusCall (m : JsVal)
  | headingCall (m : String)
  | sectionCall (m : String)
  | endCall

/-- Dispatch one public call. -/
def runCall (ctx : Context) : ContextCall → Context
  | ContextCall.outputCall line => Context.output ctx line
  | ContextCall.errorCall m => Context.error ctx m
  | ContextCall.warningCall m => Context.warning ctx m
  | ContextCall.infoCall m => Context.info ctx m
  | ContextCall.verboseCall m => Context.verbose ctx m
  | ContextCall.statusCall m => Context.status ctx m
  | ContextCall.headingCall m => Context.heading ctx m
  | ContextCall.sectionCall m => Context.sectionBanner ctx m
  | ContextCall.endCall => Context.endAll ctx

/-- Run a sequence of public calls in order. -/
def runCalls (ctx : Context) : List ContextCall → Context
  | [] => ctx
  | c :: cs => runCalls (runCall ctx c) cs

lemma runCall_hasErrors_true (ctx : Context) (c : ContextCall) (h : ctx.hasErrors = true) :
    (runCall ctx c).hasErrors = true := by
  cases c with
  | outputCall line => exact h
  | errorCall m => simp [runCall, Context.error, writeLeveled_hasErrors]
  | warningCall m =>
      rw [show runCall ctx (ContextCall.warningCall m) = Context.warning ctx m from rfl,
          Context.warning, writeLeveled_hasErrors]
      exact h
  | infoCall m =>
      rw [show runCall ctx (ContextCall.infoCall m) = Context.info ctx m from rfl,
          Context.info, writeLeveled_hasErrors]
      exact h
  | verboseCall m =>
      rw [show runCall ctx (ContextCall.verboseCall m) = Context.verbose ctx m from rfl,
          Context.verbose, writeLeveled_hasErrors]
      exact h
  | statusCall m =>
      rw [show runCall ctx (ContextCall.statusCall m) = Context.status ctx m from rfl,
          Context.status, writeLeveled_hasErrors]
      exact h
  | headingCall m =>
      rw [show runCall ctx (ContextCall.headingCall m) = Context.heading ctx m from rfl,
          heading_hasErrors]
      exact h
  | sectionCall m =>
      rw [show runCall ctx (ContextCall.sectionCall m) = Context.sectionBanner ctx m from rfl,
          sectionBanner_hasErrors]
      exact h
  | endCall => exact h

lemma runCalls_hasErrors_true (cs : List ContextCall) :
    ∀ ctx : Context, ctx.hasErrors = true → (runCalls ctx cs).hasErrors = true := by
  induction cs with
  | nil => intro ctx h; exact h
  | cons c cs ih => intro ctx h; exact ih _ (runCall_hasErrors_true _ _ h)

/-- Claim C5: once `error()` has been called, `hasErrors` is true and
stays true across any subsequent sequence of calls of any kind — no
operation of the context ever clears it. -/
theorem C5_sticky_error_flag (ctx : Context) (m : JsVal) (rest : List ContextCall) :
    (runCalls (Context.error ctx m) rest).hasErrors = true := by
  refine runCalls_hasErrors_true rest _ ?_
  simp [Context.error, writeLeveled_hasErrors]

lemma foldl_gate_iterate (f : Context → Context) :
    ∀ (ws : List DiagWriter) (c : Context),
      ws.foldl (fun acc w => if DiagnosticLevel.Status ≤ w.level then f acc else acc) c
        = f^[(ws.filter (fun w => DiagnosticLevel.Status ≤ w.level)).length] c := by
  intro ws
  induction ws with
  | nil => intro c; rfl
  | cons w ws ih =>
      intro c
      rw [List.foldl_cons]
      by_cases h : DiagnosticLevel.Status ≤ w.level
      · rw [if_pos h, ih]
        have hlen :
            (List.filter (fun w => decide (DiagnosticLevel.Status ≤ w.level)) (w :: ws)).length
              = (List.filter (fun w => decide (DiagnosticLevel.Status ≤ w.level)) ws).length
                + 1 := by
          simp [List.filter_cons, h]
        rw [hlen, Function.iterate_succ_apply]
      · rw [if_neg h, ih]
        have hlen :
            (List.filter (fun w => decide (DiagnosticLevel.Status ≤ w.level)) (w :: ws)).length
              = (List.filter (fun w => decide (DiagnosticLevel.Status ≤ w.level)) ws).length := by
          simp [List.filter_cons, h]
        rw [hlen]

/-- The number of registered writers whose threshold accepts
Status-level output. -/
def statusAccepting (ctx : Context) : Nat :=
  (ctx.writers.filter (fun w => DiagnosticLevel.Status ≤ w.level)).length

/-- Claim C7, counterexample.  With two writers at Verbose threshold
(both accept Status), `heading("x")` routes the delimited message
through the leveled-formatting path TWICE — each writer receives 6
deliveries — whereas a single pass of the formatting path at Info
level delivers only 3 per writer.  So the message is not "routed once". -/
theorem C7_counterexample :
    ((Context.heading
        { writers := [{ level := DiagnosticLevel.Verbose, received := [] },
                      { level := DiagnosticLevel.Verbose, received := [] }],
          hasErrors := false, nowIso := "T", messages := [], consoleErrors := [] }
        "x").writers.map (fun w => w.received.length) = [6, 6])
    ∧ ((Context.writeLeveled
        { writers := [{ level := DiagnosticLevel.Verbose, received := [] },
                      { level := DiagnosticLevel.Verbose, received := [] }],
          hasErrors := false, nowIso := "T", messages := [], consoleErrors := [] }
        DiagnosticLevel.Info none
        (JsVal.str (Context.headingDelim ++ "x" ++ Context.headingDelim))).writers.map
          (fun w => w.received.length) = [3, 3]) := by
  constructor
  · rfl
  · rfl

/-- Claim C7 as amended: `heading(m)` and `section(m)` run the
decorated message through the leveled-formatting path at Info level
once PER writer whose threshold is ≥ Status — `k` passes when `k`
such writers are registered (hence no output at all exactly when no
writer accepts Status-level verbosity, and duplicated output when
more than one does). -/
theorem C7_amended_banner_routing (ctx : Context) (m : String) :
    Context.heading ctx m
      = (fun c => Context.writeLeveled c DiagnosticLevel.Info none
          (JsVal.str (Context.headingDelim ++ m ++ Context.headingDelim)))^[statusAccepting ctx]
          ctx
    ∧ Context.sectionBanner ctx m
      = (fun c => Context.writeLeveled c DiagnosticLevel.Info none
          (JsVal.str (" " ++ eol ++ "+++++++" ++ m ++ " " ++ eol)))^[statusAccepting ctx]
          ctx :=
  ⟨foldl_gate_iterate _ ctx.writers ctx, foldl_gate_iterate _ ctx.writers ctx⟩

/-- Which leveled logging call was made. -/
inductive LeveledCall
  | errorCall
  | warningCall
  | infoCall
  | verboseCall
  deriving DecidableEq

/-- Dispatch a leveled logging call with an arbitrary JS value. -/
def runLeveledCall (ctx : Context) (c : LeveledCall) (m : JsVal) : Context :=
  match c with
  | LeveledCall.errorCall => Context.error ctx m
  | LeveledCall.warningCall => Context.warning ctx m
  | LeveledCall.infoCall => Context.info ctx m
  | LeveledCall.verboseCall => Context.verbose ctx m

/-- Claim C8: a non-string message passed to any leveled call is never
delivered to any writer and emits no `message` event (so nothing is
formatted as JSON into the writer stream); exactly two
`console.error` diagnostics about the malformed call are produced;
and the operation is a total function, so no exception propagates. -/
theorem C8_nonstring_discarded (ctx : Context) (c : LeveledCall) (j : String) :
    ((runLeveledCall ctx c (JsVal.obj j)).writers = ctx.writers) ∧
    ((runLeveledCall ctx c (JsVal.obj j)).messages = ctx.messages) ∧
    ((runLeveledCall ctx c (JsVal.obj j)).consoleErrors.length
        = ctx.consoleErrors.length + 2) := by
  cases c <;>
    simp [runLeveledCall, Context.error, Context.warning, Context.info, Context.verbose,
          Context.writeLeveled]

/-!
The job lifecycle manager (`JobContext` in `context.ts`).

The feedback channel (`cm.IFeedbackChannel`) and `ifm.TaskResult` are
declared in files that are not among the sources; the enum of results
and the channel's call contract (each `set*` call enqueues one partial
timeline update; `drain(cb)` completes exactly once with an optional
aggregate error; `updateJobRequest(poolId, lockToken, request, cb)`
sends the final job update and completes its callback exactly once
with an optional error) are modelled from the spec.  A run of
`finishJob` is embedded as the linear trace of feedback-channel
effects it produces, with the drain outcome and the update-callback
outcome supplied as parameters of the environment.
-/

/-- Modelled from the spec: `ifm.TaskResult`. -/
inductive TaskResult
  | Succeeded
  | SucceededWithIssues
  | Failed
  | Canceled
  | Skipped
  | Abandoned
  deriving DecidableEq

/-- Modelled from the spec: `ifm.TimelineRecordState`. -/
inductive TimelineRecordState
  | Pending
  | InProgress
  | Completed
  deriving DecidableEq

/-- One effect on the feedback channel, in the order the code issues
them.  `drainCompleted err` marks the completion of the `drain` call
with its outcome; `callbackInvoked err` marks the single completion of
the callback handed to `updateJobRequest`. -/
inductive FeedbackOp
  | setCurrentOperation (id op : String)
  | setState (id : String) (st : TimelineRecordState)
  | setFinishTime (id : String) (t : Nat)
  | setResult (id : String) (r : TaskResult)
  | consoleLog (msg : String)
  | drainCompleted (err : Option String)
  | updateJobRequest (poolId : Nat) (lockToken : String) (requestId : Nat)
      (finishTime : Nat) (result : TaskResult)
  | callbackInvoked (err : Option String)
  deriving DecidableEq

/-- The fields of `this.job` that `finishJob` reads. -/
structure JobData where
  jobId : String
  jobName : String
  requestId : Nat
  lockToken : String

/-- `setTaskResult(id, name, result)`: four timeline updates —
current-operation "Completed name", state Completed, finish time,
result. -/
def setTaskResult (id name : String) (result : TaskResult) (now : Nat) : List FeedbackOp :=
  [FeedbackOp.setCurrentOperation id ("Completed " ++ name),
   FeedbackOp.setState id TimelineRecordState.Completed,
   FeedbackOp.setFinishTime id now,
   FeedbackOp.setResult id result]

/-- `finishJob(result, callback)`: mark the job record completed with
`result`, drain the feedback queues, then — inside the drain callback,
overriding `result` with Failed if the drain reported an error — send
the single final job-request update, whose own callback completes
`finishJob`'s callback.  `now` is the clock at `setTaskResult`,
`finishTime` the clock at the job-request update; `drainErr` and
`cbErr` are the outcomes the environment hands the two callbacks. -/
def finishJob (job : JobData) (poolId : Nat) (result : TaskResult)
    (drainErr cbErr : Option String) (now finishTime : Nat) : List FeedbackOp :=
  setTaskResult job.jobId job.jobName result now
  ++ [FeedbackOp.drainCompleted drainErr]
  ++ (match drainErr with
      | some _ => [FeedbackOp.consoleLog "Failed to drain queue"]
      | none => [])
  ++ [FeedbackOp.updateJobRequest poolId job.lockToken job.requestId finishTime
        (match drainErr with
         | some _ => TaskResult.Failed
         | none => result),
      FeedbackOp.callbackInvoked cbErr]

/-- Does this effect complete `finishJob`'s callback? -/
def isCallback (e : FeedbackOp) : Bool :=
  match e with
  | FeedbackOp.callbackInvoked _ => true
  | _ => false

/-- Is this effect the final job-request update? -/
def isUpdate (e : FeedbackOp) : Bool :=
  match e with
  | FeedbackOp.updateJobRequest _ _ _ _ _ => true
  | _ => false

/-- The results carried by the job-request updates of a trace. -/
def updateResults (tr : List FeedbackOp) : List TaskResult :=
  tr.filterMap (fun e =>
    match e with
    | FeedbackOp.updateJobRequest _ _ _ _ r => some r
    | _ => none)

/-- The `(id, result)` pairs written to timeline records by a trace. -/
def resultsSetFor (tr : List FeedbackOp) : List (String × TaskResult) :=
  tr.filterMap (fun e =>
    match e with
    | FeedbackOp.setResult id r => some (id, r)
    | _ => none)

/-- Claim C2: in every run of `finishJob(r, callback)` the callback is
completed exactly once; exactly one final job-request update is sent,
and it is sent only after the drain has completed (no update precedes
the drain's completion, whatever its outcome); and the result that
update carries is Failed whenever the drain reported an error,
irrespective of `r`, and `r` itself otherwise. -/
theorem C2_finishJob_drain_override (job : JobData) (poolId : Nat) (result : TaskResult)
    (drainErr cbErr : Option String) (now finishTime : Nat) :
    ((finishJob job poolId result drainErr cbErr now finishTime).filter isCallback).length
        = 1 ∧
    ((finishJob job poolId result drainErr cbErr now finishTime).filter isUpdate).length
        = 1 ∧
    (∃ pre post, finishJob job poolId result drainErr cbErr now finishTime
          = pre ++ FeedbackOp.drainCompleted drainErr :: post ∧
        pre.filter isUpdate = [] ∧ pre.filter isCallback = []) ∧
    updateResults (finishJob job poolId result drainErr cbErr now finishTime)
        = [if drainErr.isSome then TaskResult.Failed else result] := by
  cases drainErr with
  | none =>
      exact ⟨rfl, rfl,
        ⟨setTaskResult job.jobId job.jobName result now,
         [FeedbackOp.updateJobRequest poolId job.lockToken job.requestId finishTime result,
          FeedbackOp.callbackInvoked cbErr],
         rfl, rfl, rfl⟩, rfl⟩
  | some e =>
      exact ⟨rfl, rfl,
        ⟨setTaskResult job.jobId job.jobName result now,
         [FeedbackOp.consoleLog "Failed to drain queue",
          FeedbackOp.updateJobRequest poolId job.lockToken job.requestId finishTime
            TaskResult.Failed,
          FeedbackOp.callbackInvoked cbErr],
         rfl, rfl, rfl⟩, rfl⟩

/-- Claim C9: the Failed override after a drain error applies only to
the job-request update — the job's own timeline record keeps the
result `r` passed by the caller: the only `setResult` of the whole
run carries `(jobId, r)` (even when the drain fails), and it is issued
before the drain completes, never re-issued afterwards. -/
theorem C9_timeline_keeps_caller_result (job : JobData) (poolId : Nat) (result : TaskResult)
    (drainErr cbErr : Option String) (now finishTime : Nat) :
    resultsSetFor (finishJob job poolId result drainErr cbErr now finishTime)
        = [(job.jobId, result)] ∧
    (∃ pre post, finishJob job poolId result drainErr cbErr now finishTime
          = pre ++ FeedbackOp.drainCompleted drainErr :: post ∧
        resultsSetFor pre = [(job.jobId, result)] ∧
        resultsSetFor post = []) := by
  cases drainErr with
  | none =>
      exact ⟨rfl,
        ⟨setTaskResult job.jobId job.jobName result now,
         [FeedbackOp.updateJobRequest poolId job.lockToken job.requestId finishTime result,
          FeedbackOp.callbackInvoked cbErr],
         rfl, rfl, rfl⟩⟩
  | some e =>
      exact ⟨rfl,
        ⟨setTaskResult job.jobId job.jobName result now,
         [FeedbackOp.consoleLog "Failed to drain queue",
          FeedbackOp.updateJobRequest poolId job.lockToken job.requestId finishTime
            TaskResult.Failed,
          FeedbackOp.callbackInvoked cbErr],
         rfl, rfl, rfl⟩⟩

/-- `var LOCK_RENEWAL_MS = 60 * 1000;` — the fixed lease-renewal
cadence declared in `context.ts`. -/
def LOCK_RENEWAL_MS : Nat := 60 * 1000

/-- Modelled from the spec: the periodic lease-renewal timer.  The
timer itself lives outside the given sources (only its interval
constant `LOCK_RENEWAL_MS` and the comment "Job is renewed every
minute" are in `context.ts`); per the spec it fires at the fixed
interval, independent of task progress, for as long as the job is not
yet finished.  On a discrete millisecond clock with the job finishing
at time `finish`, the renewals therefore happen at times
`LOCK_RENEWAL_MS, 2 * LOCK_RENEWAL_MS, ...` strictly before
`finish`. -/
def renewalTimes (finish : Nat) : List Nat :=
  (List.range ((finish + LOCK_RENEWAL_MS - 1) / LOCK_RENEWAL_MS - 1)).map
    (fun k => (k + 1) * LOCK_RENEWAL_MS)

/-- Claim C3: while the job is not yet finished the lease is renewed
on the fixed 60-second schedule: the `k`-th renewal happens at time
`k * LOCK_RENEWAL_MS` exactly when that instant precedes the job's
finish (so consecutive renewals are one interval apart, with no
renewal missed and none after the finish), the schedule depends on
nothing but the finish time, and the interval is 60 seconds. -/
theorem C3_lease_renewal_schedule (finish : Nat) :
    (∀ k : Nat, ((k + 1) * LOCK_RENEWAL_MS ∈ renewalTimes finish
        ↔ (k + 1) * LOCK_RENEWAL_MS < finish)) ∧
    (∀ t ∈ renewalTimes finish, ∃ k : Nat, t = (k + 1) * LOCK_RENEWAL_MS ∧ t < finish) ∧
    LOCK_RENEWAL_MS = 60 * 1000 := by
  refine ⟨?_, ?_, rfl⟩
  · intro k
    simp only [renewalTimes, List.mem_map, List.mem_range, LOCK_RENEWAL_MS]
    constructor
    · rintro ⟨a, ha, he⟩
      have : a = k := by omega
      omega
    · intro h
      exact ⟨k, by omega, rfl⟩
  · intro t ht
    simp only [renewalTimes, List.mem_map, List.mem_range, LOCK_RENEWAL_MS] at ht
    obtain ⟨a, ha, rfl⟩ := ht
    exact ⟨a, rfl, by omega⟩

/-- Witness for C3 at a concrete finish time: with the job finishing
at t = 150000 ms, the first renewal at t = 60000 ms is on the
schedule, is a positive multiple of the interval, and precedes the
finish. -/
theorem C3_witness :
    ∃ k : Nat, (60000 : Nat) = (k + 1) * LOCK_RENEWAL_MS ∧ (60000 : Nat) < 150000 :=
  (C3_lease_renewal_schedule 150000).2.1 60000 (by decide)
